import Mathlib

/-!
Verification development for the "Auto" CRUD service.

The definitions below are a shallow embedding of the TypeScript sources:
`AutoService` (reading), `AutoWriteService` (writing), `WhereBuilder`
(search-filter construction), and `suchparameter.ts` (the recognised
search-parameter names).  The relational store accessed through Prisma is
modelled as an explicit in-memory state (`Store`) that the operations thread
through `Except`; a thrown exception corresponds to an `Except.error` result
and leaves the state unchanged (the service wraps every write in a
transaction which rolls back on a throw).

JavaScript string-to-number conversions (`Number.parseInt`,
`Number.parseFloat`) and `String.prototype.slice(1, -1)` are embedded as
executable Lean functions on `String`, since the behaviour of the filter
builder and of the optimistic-concurrency check depends on them.
-/

/-! ## JavaScript string and number helpers -/

/-- Whitespace skipped by the JavaScript number-parsing functions
(space, tab, and the line terminators cover every input relevant here). -/
def jsWhitespace (c : Char) : Bool :=
  c == ' ' || c == '\t' || c == '\n' || c == '\r'

/-- Numeric value of a list of decimal digit characters (most significant first). -/
def digitsToNat (ds : List Char) : Nat :=
  ds.foldl (fun n c => 10 * n + (c.toNat - '0'.toNat)) 0

/-- Is `c` a hexadecimal digit? -/
def isHexDigitChar (c : Char) : Bool :=
  c.isDigit || ('a' ≤ c && c ≤ 'f') || ('A' ≤ c && c ≤ 'F')

/-- Numeric value of a hexadecimal digit character. -/
def hexDigitVal (c : Char) : Nat :=
  if c.isDigit then c.toNat - '0'.toNat
  else if 'a' ≤ c && c ≤ 'f' then c.toNat - 'a'.toNat + 10
  else c.toNat - 'A'.toNat + 10

/-- Numeric value of a list of hexadecimal digit characters. -/
def hexDigitsToNat (ds : List Char) : Nat :=
  ds.foldl (fun n c => 16 * n + hexDigitVal c) 0

/-- Parse a non-empty leading run of decimal digits; `none` models NaN. -/
def parseDecDigits (cs : List Char) : Option Nat :=
  let ds := cs.takeWhile Char.isDigit
  if ds.isEmpty then none else some (digitsToNat ds)

/-- `Number.parseInt(s, 10)`: skip whitespace, optional sign, then a
non-empty run of decimal digits; `none` models a NaN result. -/
def parseInt10 (s : String) : Option Int :=
  match s.data.dropWhile jsWhitespace with
  | '-' :: rest => (parseDecDigits rest).map (fun n => -(n : Int))
  | '+' :: rest => (parseDecDigits rest).map (fun n => (n : Int))
  | rest => (parseDecDigits rest).map (fun n => (n : Int))

/-- Parse the digits of `Number.parseInt` without an explicit radix: a
leading `0x`/`0X` switches to hexadecimal, otherwise decimal. -/
def parseIntDigitsNoRadix (cs : List Char) : Option Nat :=
  match cs with
  | '0' :: c :: rest =>
    if c == 'x' || c == 'X' then
      let ds := rest.takeWhile isHexDigitChar
      if ds.isEmpty then none else some (hexDigitsToNat ds)
    else parseDecDigits cs
  | _ => parseDecDigits cs

/-- `Number.parseInt(s)` with no radix argument, as used by the filter
builder for the `rating` parameter; `none` models a NaN result. -/
def parseIntNoRadix (s : String) : Option Int :=
  match s.data.dropWhile jsWhitespace with
  | '-' :: rest => (parseIntDigitsNoRadix rest).map (fun n => -(n : Int))
  | '+' :: rest => (parseIntDigitsNoRadix rest).map (fun n => (n : Int))
  | rest => (parseIntDigitsNoRadix rest).map (fun n => (n : Int))

/-- A JavaScript number that is not NaN: finite rational, or an infinity
(`Number.parseFloat` accepts a literal `Infinity`). -/
inductive JSNum where
  | finite (q : ℚ)
  | posInf
  | negInf
deriving DecidableEq, Repr

/-- Parse an optional exponent part `e`/`E` `[sign]` digits; yields the
exponent (0 when absent or when the digits are missing, in which case the
`e` is not part of the parsed prefix). -/
def parseFloatExp (cs : List Char) : Int :=
  match cs with
  | 'e' :: rest | 'E' :: rest =>
    match rest with
    | '-' :: rest2 =>
      (match parseDecDigits rest2 with
       | some n => -(n : Int)
       | none => 0)
    | '+' :: rest2 =>
      (match parseDecDigits rest2 with
       | some n => (n : Int)
       | none => 0)
    | rest2 =>
      (match parseDecDigits rest2 with
       | some n => (n : Int)
       | none => 0)
  | _ => 0

/-- Parse an unsigned decimal literal `digits [. digits] [exp]`; at least one
digit must be present before or after the dot. -/
def parseFloatMagnitude (cs : List Char) : Option ℚ :=
  let intDs := cs.takeWhile Char.isDigit
  let rest1 := cs.drop intDs.length
  let fracDs :=
    match rest1 with
    | '.' :: r => r.takeWhile Char.isDigit
    | _ => []
  let rest2 :=
    match rest1 with
    | '.' :: r => r.drop fracDs.length
    | _ => rest1
  if intDs.isEmpty && fracDs.isEmpty then none
  else
    let mantissa : ℚ :=
      (digitsToNat intDs : ℚ) + (digitsToNat fracDs : ℚ) / (10 : ℚ) ^ fracDs.length
    some (mantissa * (10 : ℚ) ^ parseFloatExp rest2)

/-- `Number.parseFloat(s)`: skip whitespace, optional sign, then either the
literal `Infinity` or a decimal literal, reading the longest valid prefix;
`none` models a NaN result. -/
def parseFloatJS (s : String) : Option JSNum :=
  let core : List Char → Bool → Option JSNum := fun cs neg =>
    if ['I', 'n', 'f', 'i', 'n', 'i', 't', 'y'].isPrefixOf cs then
      some (if neg then JSNum.negInf else JSNum.posInf)
    else
      (parseFloatMagnitude cs).map fun q =>
        JSNum.finite (if neg then -q else q)
  match s.data.dropWhile jsWhitespace with
  | '-' :: rest => core rest true
  | '+' :: rest => core rest false
  | rest => core rest false

/-- `s.slice(1, -1)`: drop the first and the last character. -/
def jsSliceOneNegOne (s : String) : String :=
  String.mk ((s.data.drop 1).dropLast)

/-- Lexicographic strict order on character lists. -/
def charListLt : List Char → List Char → Bool
  | [], [] => false
  | [], _ :: _ => true
  | _ :: _, [] => false
  | a :: as, b :: bs => a < b || (a == b && charListLt as bs)

/-- Lexicographic `≤` on strings (ISO-8601 date strings compare
chronologically under this order). -/
def strLeB (a b : String) : Bool :=
  a == b || charListLt a.data b.data

/-- `String.prototype.toLowerCase()` on one character: the inputs compared
here are ASCII, where lowercasing adds 32 to an upper-case letter. -/
def jsCharToLower (c : Char) : Char :=
  if 'A' ≤ c && c ≤ 'Z' then Char.ofNat (c.toNat + 32) else c

/-- `String.prototype.toLowerCase()` (ASCII). -/
def jsToLower (s : String) : String :=
  String.mk (s.data.map jsCharToLower)

/-- Does `hay` contain `needle` as a contiguous sublist? -/
def listContainsSub (needle : List Char) : List Char → Bool
  | [] => needle.isEmpty
  | c :: t => needle.isPrefixOf (c :: t) || listContainsSub needle t

/-- Case-insensitive substring test, the semantics of the `contains` filter
with `mode: insensitive` used for `identifikationsNummer`. -/
def containsInsensitive (hay sub : String) : Bool :=
  listContainsSub (jsToLower sub).data (jsToLower hay).data

/-! ## Data model

The Prisma entity types, restricted to the fields the embedded operations
read or write.  Nullable database columns are `Option`s; `preis` and
`rabatt` are arbitrary-precision decimals, modelled as rationals; dates are
kept as ISO-8601 strings. -/

/-- Registration sub-record (`fahrzeugschein`), one-to-one with a vehicle. -/
structure Fahrzeugschein where
  identifikationsNummer : String
deriving DecidableEq, Repr

/-- A vehicle row.  `version` is the optimistic-concurrency counter
(starts at 0), `schlagwoerter` is the nullable JSON keyword array. -/
structure Auto where
  id : Nat
  version : Int
  fin : Option String
  rating : Int
  art : Option String
  preis : ℚ
  rabatt : Option ℚ
  verfuegbar : Option Bool
  baujahr : Option String
  homepage : Option String
  schlagwoerter : Option (List String)
  fahrzeugschein : Option Fahrzeugschein
deriving DecidableEq, Repr

/-- An attached binary file row (`AutoFile`), at most one per vehicle. -/
structure AutoFile where
  id : Nat
  filename : String
  data : List Nat
  mimetype : Option String
  autoId : Nat
deriving DecidableEq, Repr

/-- The relational store: the `auto` and `auto_file` tables. -/
structure Store where
  autos : List Auto
  files : List AutoFile
deriving DecidableEq, Repr

/-- Page request: `number` is the zero-based page, `size` the page size. -/
structure Pageable where
  number : Nat
  size : Nat
deriving DecidableEq, Repr

/-- A slice of results: one page of content plus the unpaginated total. -/
structure Slice where
  content : List Auto
  totalElements : Nat
deriving DecidableEq, Repr

/-- The service-level error taxonomy.  Each constructor corresponds to an
exception class thrown by the services; `foreignKeyViolation` is the error
the relational store (an external collaborator) raises when an insert
references a missing row. -/
inductive Err where
  | notFound (msg : String)
  | finExists (fin : String)
  | versionInvalid (version : String)
  | versionOutdated (version : Int)
  | foreignKeyViolation (autoId : Nat)
deriving DecidableEq, Repr

/-! ## Search parameters

A `Suchparameter` object arrives as a flat bag of string-valued query
parameters; it is embedded as an association list whose order is the
object's key-insertion order (`Object.keys` / `Object.entries` order). -/

/-- A search-parameter bag: present keys with their string values. -/
abbrev Suchparameter := List (String × String)

/-- Value of property `name` in the bag (JavaScript property access /
destructuring on an object with unique keys). -/
def lookupParam (ps : Suchparameter) (name : String) : Option String :=
  (ps.find? (fun kv => kv.1 == name)).map (fun kv => kv.2)

/-- The recognised non-flag search-parameter names (`suchparameterNamen`
from `suchparameter.ts`). -/
def suchparameterNamen : List String :=
  ["fin", "rating", "art", "preis", "rabatt", "verfuegbar", "baujahr",
   "homepage", "schlagwoerter", "identifikationsNummer"]

/-- The 19 boolean tag-flag names destructured by `WhereBuilder.build` and
enumerated one by one in `AutoService.#checkKeys`. -/
def tagFlagNamen : List String :=
  ["allrad", "benzin", "budget", "business", "cabrio", "e_auto", "einfach",
   "familie", "hybrid", "komfort", "kombi", "nutzfahrzeug", "pickup",
   "reichweite", "sparsam", "sport", "suv", "tech", "vier_x_vier"]

/-- The seven valid `Autoart` enum values checked by `AutoService.#checkEnums`. -/
def validArtWerte : List String :=
  ["SUV", "CABRIO", "LIMOUSINE", "E_AUTO", "KOMBI", "PICKUP", "CROSSOVER"]

/-! ## WhereBuilder -/

namespace WhereBuilder

/-- The values of the 19 tag flags destructured from the search-parameter
bag by `build` (each `string | undefined`). -/
structure TagFlags where
  allrad : Option String
  benzin : Option String
  budget : Option String
  business : Option String
  cabrio : Option String
  e_auto : Option String
  einfach : Option String
  familie : Option String
  hybrid : Option String
  komfort : Option String
  kombi : Option String
  nutzfahrzeug : Option String
  pickup : Option String
  reichweite : Option String
  sparsam : Option String
  sport : Option String
  suv : Option String
  tech : Option String
  vier_x_vier : Option String
deriving DecidableEq, Repr

/-- Destructure the flag values out of the bag, as `build`'s parameter
pattern does. -/
def flagsOf (ps : Suchparameter) : TagFlags :=
  { allrad := lookupParam ps "allrad"
    benzin := lookupParam ps "benzin"
    budget := lookupParam ps "budget"
    business := lookupParam ps "business"
    cabrio := lookupParam ps "cabrio"
    e_auto := lookupParam ps "e_auto"
    einfach := lookupParam ps "einfach"
    familie := lookupParam ps "familie"
    hybrid := lookupParam ps "hybrid"
    komfort := lookupParam ps "komfort"
    kombi := lookupParam ps "kombi"
    nutzfahrzeug := lookupParam ps "nutzfahrzeug"
    pickup := lookupParam ps "pickup"
    reichweite := lookupParam ps "reichweite"
    sparsam := lookupParam ps "sparsam"
    sport := lookupParam ps "sport"
    suv := lookupParam ps "suv"
    tech := lookupParam ps "tech"
    vier_x_vier := lookupParam ps "vier_x_vier" }

/-- The optional-chaining test `flag?.toLowerCase() === 'true'`. -/
def isTrueFlag : Option String → Bool
  | some s => jsToLower s == "true"
  | none => false

/-- `#buildSchlagwoerter`: each flag whose value is (case-insensitively)
`"true"` pushes its keyword, in the fixed source order. -/
def buildSchlagwoerter (t : TagFlags) : List String :=
  (if isTrueFlag t.allrad then ["ALLRAD"] else []) ++
  (if isTrueFlag t.benzin then ["BENZIN"] else []) ++
  (if isTrueFlag t.budget then ["BUDGET"] else []) ++
  (if isTrueFlag t.business then ["BUSINESS"] else []) ++
  (if isTrueFlag t.cabrio then ["CABRIO"] else []) ++
  (if isTrueFlag t.e_auto then ["E-AUTO"] else []) ++
  (if isTrueFlag t.einfach then ["EINFACH"] else []) ++
  (if isTrueFlag t.familie then ["FAMILIE"] else []) ++
  (if isTrueFlag t.hybrid then ["HYBRID"] else []) ++
  (if isTrueFlag t.komfort then ["KOMFORT"] else []) ++
  (if isTrueFlag t.kombi then ["KOMBI"] else []) ++
  (if isTrueFlag t.nutzfahrzeug then ["NUTZFAHRZEUG"] else []) ++
  (if isTrueFlag t.pickup then ["PICKUP"] else []) ++
  (if isTrueFlag t.reichweite then ["REICHWEITE"] else []) ++
  (if isTrueFlag t.sparsam then ["SPARSAM"] else []) ++
  (if isTrueFlag t.sport then ["SPORT"] else []) ++
  (if isTrueFlag t.suv then ["SUV"] else []) ++
  (if isTrueFlag t.tech then ["TECH"] else []) ++
  (if isTrueFlag t.vier_x_vier then ["4x4"] else [])

/-- The structured predicate (`AutoWhereInput`) produced by the builder:
one optional clause per filterable column. -/
structure Where where
  identifikationsNummerContains : Option String
  finEquals : Option String
  ratingGte : Option Int
  preisLte : Option JSNum
  artEquals : Option String
  verfuegbarEquals : Option Bool
  baujahrGte : Option String
  homepageEquals : Option String
  schlagwoerterContains : Option (List String)
deriving DecidableEq, Repr

/-- The predicate with no clauses (`const where = {}`). -/
def emptyWhere : Where :=
  ⟨none, none, none, none, none, none, none, none, none⟩

/-- One step of the `switch` in `build` over a rest-property entry. -/
def applyRest (w : Where) (kv : String × String) : Where :=
  match kv.1 with
  | "identifikationsNummer" => { w with identifikationsNummerContains := some kv.2 }
  | "fin" => { w with finEquals := some kv.2 }
  | "rating" =>
    match parseIntNoRadix kv.2 with
    | some n => { w with ratingGte := some n }
    | none => w
  | "preis" =>
    match parseFloatJS kv.2 with
    | some q => { w with preisLte := some q }
    | none => w
  | "art" => { w with artEquals := some kv.2 }
  | "lieferbar" => { w with verfuegbarEquals := some (jsToLower kv.2 == "true") }
  | "verfuegbar" => { w with verfuegbarEquals := some (jsToLower kv.2 == "true") }
  | "baujahr" => { w with baujahrGte := some kv.2 }
  | "datum" => { w with baujahrGte := some kv.2 }
  | "homepage" => { w with homepageEquals := some kv.2 }
  | _ => w

/-- `WhereBuilder.build`: destructure the tag flags, fold the `switch` over
the remaining entries, then add the keyword-superset clause when the
accumulated keyword list is non-empty. -/
def build (ps : Suchparameter) : Where :=
  let restProps := ps.filter (fun kv => !(tagFlagNamen.contains kv.1))
  let w := restProps.foldl applyRest emptyWhere
  let schlagwoerter := buildSchlagwoerter (flagsOf ps)
  if schlagwoerter.isEmpty then w
  else { w with schlagwoerterContains := some schlagwoerter }

end WhereBuilder

/-- Does `p ≤ b` hold for a decimal column value against a JS-number bound? -/
def jsNumLe (p : ℚ) : JSNum → Bool
  | JSNum.finite q => decide (p ≤ q)
  | JSNum.posInf => true
  | JSNum.negInf => false

/-- Evaluate a `Where` predicate on a vehicle row (the store's semantics of
the generated query: every present clause must hold). -/
def matchesWhere (w : WhereBuilder.Where) (a : Auto) : Bool :=
  (match w.identifikationsNummerContains with
   | none => true
   | some s =>
     match a.fahrzeugschein with
     | some f => containsInsensitive f.identifikationsNummer s
     | none => false) &&
  (match w.finEquals with
   | none => true
   | some s => a.fin == some s) &&
  (match w.ratingGte with
   | none => true
   | some n => decide (n ≤ a.rating)) &&
  (match w.preisLte with
   | none => true
   | some b => jsNumLe a.preis b) &&
  (match w.artEquals with
   | none => true
   | some s => a.art == some s) &&
  (match w.verfuegbarEquals with
   | none => true
   | some b => a.verfuegbar == some b) &&
  (match w.baujahrGte with
   | none => true
   | some d =>
     match a.baujahr with
     | some bd => strLeB d bd
     | none => false) &&
  (match w.homepageEquals with
   | none => true
   | some s => a.homepage == some s) &&
  (match w.schlagwoerterContains with
   | none => true
   | some kws =>
     match a.schlagwoerter with
     | some l => kws.all (fun k => l.contains k)
     | none => false)

/-! ## AutoService (reading) -/

namespace AutoService

/-- The in-place normalisation `auto.schlagwoerter ??= []`. -/
def normalizeSchlagwoerter (a : Auto) : Auto :=
  match a.schlagwoerter with
  | none => { a with schlagwoerter := some [] }
  | some _ => a

/-- `AutoService.findById`: look the row up by primary key (optionally with
the equipment included, which adds no field read here), fail with
`NotFoundException` when absent, and normalise a null keyword set. -/
def findById (store : Store) (id : Nat) (mitAusstattungen : Bool) : Except Err Auto :=
  match store.autos.find? (fun a => a.id == id) with
  | none => Except.error (Err.notFound ("Es gibt kein Auto mit der ID " ++ toString id ++ "."))
  | some auto =>
    let _ := mitAusstattungen
    Except.ok (normalizeSchlagwoerter auto)

/-- `AutoService.count`: the unconditional row count of the `auto` table. -/
def count (store : Store) : Nat :=
  store.autos.length

/-- `AutoService.#checkKeys`: a `forEach` that clears the flag whenever a
key is neither in `suchparameterNamen` nor one of the 19 tag-flag names. -/
def checkKeys (keys : List String) : Bool :=
  keys.foldl
    (fun validKeys key =>
      if !(suchparameterNamen.contains key || tagFlagNamen.contains key) then false
      else validKeys)
    true

/-- `AutoService.#checkEnums`: an `art` value, when present, must be one of
the seven enum values. -/
def checkEnums (ps : Suchparameter) : Bool :=
  match lookupParam ps "art" with
  | none => true
  | some art => validArtWerte.contains art

/-- `JSON.stringify` of the string-valued search-parameter object
(escaping elided: the recognised keys and values here contain no
characters that JSON escapes). -/
def jsonStringify (ps : Suchparameter) : String :=
  "\x7b" ++ String.intercalate ","
    (ps.map (fun kv => "\"" ++ kv.1 ++ "\":\"" ++ kv.2 ++ "\"")) ++ "\x7d"

/-- `findMany` pagination: `skip: number * size, take: size`. -/
def seite (l : List Auto) (pageable : Pageable) : List Auto :=
  (l.drop (pageable.number * pageable.size)).take pageable.size

/-- `AutoService.#createSlice`: normalise each row's keyword set and wrap
the page with the total count. -/
def createSlice (autos : List Auto) (totalElements : Nat) : Slice :=
  { content := autos.map normalizeSchlagwoerter, totalElements := totalElements }

/-- `AutoService.#findAll`: the unfiltered page; an empty page is a
`NotFoundException` naming the page number. -/
def findAll (store : Store) (pageable : Pageable) : Except Err Slice :=
  let autos := seite store.autos pageable
  if autos.length = 0 then
    Except.error (Err.notFound ("Ungueltige Seite \"" ++ toString pageable.number ++ "\""))
  else
    Except.ok (createSlice autos (count store))

/-- `AutoService.find`: no (or empty) parameters delegate to `#findAll`;
otherwise the keys and the `art` enum are validated, the filter is built
and the page queried; an empty result page is a `NotFoundException`
carrying the stringified parameters and the page number (the source
template has a stray closing brace after the page number). -/
def find (store : Store) (suchparameter : Option Suchparameter) (pageable : Pageable) :
    Except Err Slice :=
  match suchparameter with
  | none => findAll store pageable
  | some ps =>
    if ps.length = 0 then findAll store pageable
    else if !(checkKeys (ps.map Prod.fst)) || !(checkEnums ps) then
      Except.error (Err.notFound "Ungueltige Suchparameter")
    else
      let w := WhereBuilder.build ps
      let autos := seite (store.autos.filter (fun a => matchesWhere w a)) pageable
      if autos.length = 0 then
        Except.error (Err.notFound
          ("Keine Autos gefunden: " ++ jsonStringify ps ++ ", Seite " ++
            toString pageable.number ++ "\x7d"))
      else
        Except.ok (createSlice autos (count store))

end AutoService

/-! ## AutoWriteService (writing) -/

namespace AutoWriteService

/-- Input of `create`: the new vehicle's fields (`Prisma.AutoCreateInput`);
`version` is absent and defaults to 0 in the store. -/
structure AutoCreate where
  fin : Option String
  rating : Int
  art : Option String
  preis : ℚ
  rabatt : Option ℚ
  verfuegbar : Option Bool
  baujahr : Option String
  homepage : Option String
  schlagwoerter : Option (List String)
  fahrzeugschein : Option Fahrzeugschein
deriving DecidableEq, Repr

/-- Input of `update` (`Prisma.AutoUpdateInput` restricted to the scalar
fields the service sends): a present field overwrites the stored value. -/
structure AutoUpdate where
  fin : Option (Option String)
  rating : Option Int
  art : Option (Option String)
  preis : Option ℚ
  rabatt : Option (Option ℚ)
  verfuegbar : Option (Option Bool)
  baujahr : Option (Option String)
  homepage : Option (Option String)
  schlagwoerter : Option (Option (List String))
deriving DecidableEq, Repr

/-- The update carrying no field changes. -/
def emptyUpdate : AutoUpdate :=
  ⟨none, none, none, none, none, none, none, none, none⟩

/-- Number of stored rows with the given FIN
(`prisma.auto.count(\x7b where: \x7b fin \x7d \x7d)`). -/
def finCount (store : Store) (fin : String) : Nat :=
  (store.autos.filter (fun a => a.fin == some fin)).length

/-- The database's autoincrement primary-key generator (external
collaborator), modelled as one past the largest existing id. -/
def nextAutoId (store : Store) : Nat :=
  store.autos.foldl (fun m a => max m a.id) 0 + 1

/-- Likewise for `auto_file` ids. -/
def nextFileId (store : Store) : Nat :=
  store.files.foldl (fun m f => max m f.id) 0 + 1

/-- The row inserted by `create` for the given generated id: the input's
fields with the version counter starting at 0. -/
def toAuto (id : Nat) (c : AutoCreate) : Auto :=
  { id := id
    version := 0
    fin := c.fin
    rating := c.rating
    art := c.art
    preis := c.preis
    rabatt := c.rabatt
    verfuegbar := c.verfuegbar
    baujahr := c.baujahr
    homepage := c.homepage
    schlagwoerter := c.schlagwoerter
    fahrzeugschein := c.fahrzeugschein }

/-- `AutoWriteService.create`: `#validateCreate` first (an undefined FIN is
accepted; a FIN with existing rows raises `FinExistsException`), then the
transactional insert; the generated id is returned. -/
def create (store : Store) (auto : AutoCreate) : Except Err (Store × Nat) :=
  match auto.fin with
  | some fin =>
    if finCount store fin > 0 then Except.error (Err.finExists fin)
    else
      let id := nextAutoId store
      Except.ok ({ store with autos := store.autos ++ [toAuto id auto] }, id)
  | none =>
    let id := nextAutoId store
    Except.ok ({ store with autos := store.autos ++ [toAuto id auto] }, id)

/-- The regular expression test `/^"\d\x7b1,3\x7d"/u.test(s)`: the pattern
is anchored only at the start, so it succeeds exactly when `s` begins with
a double quote, `k ∈ \x7b1,2,3\x7d` decimal digits and another double
quote — whatever follows. -/
def versionPatternTest (s : String) : Bool :=
  match s.data with
  | c :: rest =>
    c == '"' &&
      [1, 2, 3].any (fun k =>
        decide ((rest.take k).length = k) && (rest.take k).all Char.isDigit &&
          rest.get? k == some '"')
  | [] => false

/-- The parse `Number.parseInt(versionStr.slice(1, -1), 10)`. -/
def parseVersion (s : String) : Option Int :=
  parseInt10 (jsSliceOneNegOne s)

/-- Apply an `AutoUpdate` to a stored row, together with the
`version: \x7b increment: 1 \x7d` the service adds before writing. -/
def applyUpdate (u : AutoUpdate) (a : Auto) : Auto :=
  { a with
    version := a.version + 1
    fin := u.fin.getD a.fin
    rating := u.rating.getD a.rating
    art := u.art.getD a.art
    preis := u.preis.getD a.preis
    rabatt := u.rabatt.getD a.rabatt
    verfuegbar := u.verfuegbar.getD a.verfuegbar
    baujahr := u.baujahr.getD a.baujahr
    homepage := u.homepage.getD a.homepage
    schlagwoerter := u.schlagwoerter.getD a.schlagwoerter }

/-- `AutoWriteService.update`: an undefined id is `NotFoundException`;
`#validateUpdate` tests the version pattern (`VersionInvalidException`
carrying the raw string), fetches the stored row via the read service
(which may raise `NotFoundException`), and compares the parsed version —
only a strictly smaller value raises `VersionOutdatedException` (a NaN
comparison is false in JavaScript, so an unparsable value passes).  On
success the row is rewritten with the version incremented by 1 and the new
version number is returned. -/
def update (store : Store) (id : Option Nat) (auto : AutoUpdate) (version : String) :
    Except Err (Store × Int) :=
  match id with
  | none => Except.error (Err.notFound "Es gibt kein Auto mit der ID undefined.")
  | some id =>
    if !(versionPatternTest version) then Except.error (Err.versionInvalid version)
    else
      match AutoService.findById store id false with
      | Except.error e => Except.error e
      | Except.ok autoDb =>
        let outdated :=
          match parseVersion version with
          | some n => decide (n < autoDb.version)
          | none => false
        if outdated then
          Except.error (Err.versionOutdated ((parseVersion version).getD 0))
        else
          let store' :=
            { store with
              autos := store.autos.map (fun a => if a.id == id then applyUpdate auto a else a) }
          Except.ok (store', autoDb.version + 1)

/-- `AutoWriteService.addFile`.  BUG faithfully embedded: the source binds
`const auto = tx.auto.findUnique(...)` without `await`, so `auto` is a
pending Promise object and the `auto === null` test is always false — the
`NotFoundException` branch is dead code.  When the vehicle does not exist
the transaction instead fails at `tx.autoFile.create` with the store's
foreign-key violation on `autoId` (external collaborator behaviour) and
rolls back.  `sniffedMime` stands for `fileTypeFromBuffer(data)?.mime ?? null`,
the MIME type detected from the byte content by the external `file-type`
library. -/
def addFile (store : Store) (autoId : Nat) (data : List Nat)
    (sniffedMime : Option String) (filename : String) :
    Except Err (Store × AutoFile) :=
  let autoIsNull := false
  if autoIsNull then
    Except.error (Err.notFound ("Es gibt kein Auto mit der ID " ++ toString autoId ++ "."))
  else
    let files' := store.files.filter (fun f => f.autoId != autoId)
    if store.autos.any (fun a => a.id == autoId) then
      let file : AutoFile :=
        { id := nextFileId store
          filename := filename
          data := data
          mimetype := sniffedMime
          autoId := autoId }
      Except.ok ({ store with files := files' ++ [file] }, file)
    else
      Except.error (Err.foreignKeyViolation autoId)

end AutoWriteService

/-! ## Specification-side definitions

These two definitions follow the specification's words (not the source);
they exist to be compared with the source-derived definitions above. -/

/-- Modelled from the spec: the version format of §4.3 — the whole string
is a double quote, one to three decimal digits, and a closing double quote,
with no additional characters before or after. -/
def specExactVersion (s : String) : Bool :=
  match s.data with
  | c :: rest =>
    c == '"' && decide (2 ≤ rest.length) && decide (rest.length ≤ 4) &&
      rest.dropLast.all Char.isDigit && rest.getLast? == some '"'
  | [] => false

/-- Modelled from the spec: the recognised comparison-parameter names of the
table in §4.1, including the aliases `lieferbar` (for `verfuegbar`) and
`datum` (for `baujahr`). -/
def specTableKeys : List String :=
  ["identifikationsNummer", "fin", "rating", "preis", "art", "verfuegbar",
   "lieferbar", "baujahr", "datum", "homepage"]

/-! ## General lemmas about the embedded services -/

/-- Every successful `find` result is a `createSlice` of a non-empty page
with the unconditional total count. -/
lemma findAll_ok_createSlice (store : Store) (pg : Pageable) (slice : Slice)
    (h : AutoService.findAll store pg = Except.ok slice) :
    ∃ l, l ≠ [] ∧ slice = AutoService.createSlice l (AutoService.count store) := by
  simp only [AutoService.findAll] at h
  split at h
  · simp at h
  · rename_i hlen
    simp only [Except.ok.injEq] at h
    subst h
    exact ⟨_, fun hnil => hlen (by rw [hnil]; rfl), rfl⟩

/-- Every successful `find` result is a `createSlice` of a non-empty page
with the unconditional total count. -/
lemma find_ok_createSlice (store : Store) (ops : Option Suchparameter)
    (pg : Pageable) (slice : Slice)
    (h : AutoService.find store ops pg = Except.ok slice) :
    ∃ l, l ≠ [] ∧ slice = AutoService.createSlice l (AutoService.count store) := by
  cases ops with
  | none => exact findAll_ok_createSlice store pg slice h
  | some ps =>
    simp only [AutoService.find] at h
    split at h
    · exact findAll_ok_createSlice store pg slice h
    · split at h
      · simp at h
      · split at h
        · simp at h
        · rename_i hlen
          simp only [Except.ok.injEq] at h
          subst h
          exact ⟨_, fun hnil => hlen (by rw [hnil]; rfl), rfl⟩

/-- Normalisation always yields a present keyword list: the stored value
with `none` replaced by the empty list. -/
lemma normalize_schlagwoerter_eq (x : Auto) :
    (AutoService.normalizeSchlagwoerter x).schlagwoerter = some (x.schlagwoerter.getD []) := by
  cases hs : x.schlagwoerter <;>
    simp [AutoService.normalizeSchlagwoerter, hs]

/-! ## Sample data for witnesses and counterexamples -/

/-- A sample vehicle row used by witnesses. -/
def autoA : Auto :=
  { id := 1, version := 0, fin := some "WDB123456789XYZ01", rating := 5,
    art := some "SUV", preis := 35000, rabatt := none, verfuegbar := some true,
    baujahr := some "2021-01-31", homepage := none,
    schlagwoerter := some ["SUV", "ALLRAD"],
    fahrzeugschein := some ⟨"KA-AB1234"⟩ }

/-- A second sample vehicle row, with a null keyword set. -/
def autoB : Auto :=
  { id := 2, version := 3, fin := some "HYU12398765412TUC", rating := 3,
    art := some "KOMBI", preis := 11999, rabatt := none, verfuegbar := some false,
    baujahr := some "2023-05-01", homepage := none, schlagwoerter := none,
    fahrzeugschein := some ⟨"M-XY987"⟩ }

/-- A two-row sample store. -/
def sampleStore : Store := ⟨[autoA, autoB], []⟩

/-- C5: for every successful `find` call, the `totalElements` field of the
returned slice equals the unconditional count of all vehicle records in the
store, whether or not a filter was applied. -/
theorem find_totalElements_is_unconditional_count (store : Store)
    (ops : Option Suchparameter) (pg : Pageable) (slice : Slice)
    (h : AutoService.find store ops pg = Except.ok slice) :
    slice.totalElements = AutoService.count store := by
  obtain ⟨l, -, rfl⟩ := find_ok_createSlice store ops pg slice h
  rfl

/-- Witness for C5: a filtered search over the two-row store matches a
single row, yet `totalElements` is the full row count 2. -/
theorem find_totalElements_witness :
    ∃ slice, AutoService.find sampleStore (some [("rating", "4")]) ⟨0, 5⟩ = Except.ok slice ∧
      slice.totalElements = AutoService.count sampleStore ∧
      slice.content.length = 1 ∧ AutoService.count sampleStore = 2 :=
  ⟨_, rfl,
    find_totalElements_is_unconditional_count sampleStore (some [("rating", "4")]) ⟨0, 5⟩ _ rfl,
    rfl, rfl⟩

/-- C10: every vehicle record returned by a read operation has a non-null
keyword set — `findById` and each element of a `find` slice's content have a
null/missing `schlagwoerter` replaced by the empty list. -/
theorem read_keyword_set_never_null (store : Store) :
    (∀ (id : Nat) (m : Bool) (a : Auto),
      AutoService.findById store id m = Except.ok a →
      a.schlagwoerter.isSome = true ∧
      ∀ orig, store.autos.find? (fun x => x.id == id) = some orig →
        a.schlagwoerter = some (orig.schlagwoerter.getD [])) ∧
    (∀ (ops : Option Suchparameter) (pg : Pageable) (slice : Slice),
      AutoService.find store ops pg = Except.ok slice →
      ∀ a ∈ slice.content,
        a.schlagwoerter.isSome = true ∧
        ∃ x, a = AutoService.normalizeSchlagwoerter x ∧
          a.schlagwoerter = some (x.schlagwoerter.getD [])) := by
  constructor
  · intro id m a h
    unfold AutoService.findById at h
    split at h
    · simp at h
    · rename_i orig horig
      simp only [Except.ok.injEq] at h
      subst h
      refine ⟨by rw [normalize_schlagwoerter_eq]; rfl, ?_⟩
      intro orig' horig'
      rw [horig] at horig'
      cases horig'
      exact normalize_schlagwoerter_eq orig
  · intro ops pg slice h a ha
    obtain ⟨l, -, rfl⟩ := find_ok_createSlice store ops pg slice h
    simp only [AutoService.createSlice, List.mem_map] at ha
    obtain ⟨x, -, rfl⟩ := ha
    exact ⟨by rw [normalize_schlagwoerter_eq]; rfl,
      x, rfl, normalize_schlagwoerter_eq x⟩

/-- Witness for C10: reading the row whose stored keyword set is null
yields the empty list. -/
theorem read_keyword_set_witness :
    ∃ a, AutoService.findById sampleStore 2 false = Except.ok a ∧
      a.schlagwoerter = some [] :=
  ⟨_, rfl, by
    have h := ((read_keyword_set_never_null sampleStore).1 2 false
      (AutoService.normalizeSchlagwoerter autoB) rfl).2 autoB rfl
    simpa using h⟩

/-- C8: `find` fails with a NotFound error whenever the requested page of
results is empty — with the rejected parameters and page number in the
message for a filtered search, and the page number for a no-parameter
listing — and `find` never returns a success slice with empty content. -/
theorem find_empty_page_notFound (store : Store) (ops : Option Suchparameter)
    (pg : Pageable) :
    (∀ slice, AutoService.find store ops pg = Except.ok slice → slice.content ≠ []) ∧
    (∀ ps, ops = some ps → ps ≠ [] →
      AutoService.checkKeys (ps.map Prod.fst) = true →
      AutoService.checkEnums ps = true →
      AutoService.seite
        (store.autos.filter (fun a => matchesWhere (WhereBuilder.build ps) a)) pg = [] →
      AutoService.find store ops pg =
        Except.error (Err.notFound ("Keine Autos gefunden: " ++
          AutoService.jsonStringify ps ++ ", Seite " ++ toString pg.number ++ "\x7d"))) ∧
    ((ops = none ∨ ops = some []) → AutoService.seite store.autos pg = [] →
      AutoService.find store ops pg =
        Except.error (Err.notFound ("Ungueltige Seite \"" ++ toString pg.number ++ "\""))) := by
  refine ⟨?_, ?_, ?_⟩
  · intro slice h
    obtain ⟨l, hl, rfl⟩ := find_ok_createSlice store ops pg slice h
    simp [AutoService.createSlice, hl]
  · rintro ps rfl hne hkeys henums hempty
    simp only [AutoService.find]
    rw [if_neg (by simpa using fun h => hne (List.length_eq_zero.mp h)),
      if_neg (by simp [hkeys, henums]), if_pos (by simp [hempty])]
  · have hAll : AutoService.seite store.autos pg = [] →
        AutoService.findAll store pg =
          Except.error (Err.notFound ("Ungueltige Seite \"" ++ toString pg.number ++ "\"")) := by
      intro hempty
      simp only [AutoService.findAll]
      rw [if_pos (by simp [hempty])]
    rintro (rfl | rfl) hempty
    · exact hAll hempty
    · simp only [AutoService.find]
      rw [if_pos (by simp)]
      exact hAll hempty

/-- Witness for C8: a filtered search with no match on the sample store
fails with the parameter-carrying NotFound message. -/
theorem find_empty_page_witness :
    AutoService.find sampleStore (some [("fin", "NOPE")]) ⟨0, 5⟩ =
      Except.error (Err.notFound "Keine Autos gefunden: \x7b\"fin\":\"NOPE\"\x7d, Seite 0\x7d") :=
  (find_empty_page_notFound sampleStore (some [("fin", "NOPE")]) ⟨0, 5⟩).2.1
    [("fin", "NOPE")] rfl (by decide) (by decide) (by decide) (by decide)

/-- C9: `create` fails with `FinExists` (identifying the colliding FIN, with
nothing inserted) exactly when the input's FIN is defined and already has
matching rows; with a FIN count of 0 the row is inserted and the generated
id is returned. -/
theorem create_fin_uniqueness (store : Store) (input : AutoWriteService.AutoCreate)
    (f : String) (hf : input.fin = some f) :
    (AutoWriteService.finCount store f > 0 →
      AutoWriteService.create store input = Except.error (Err.finExists f)) ∧
    (AutoWriteService.finCount store f = 0 →
      AutoWriteService.create store input =
        Except.ok
          ({ store with
              autos := store.autos ++
                [AutoWriteService.toAuto (AutoWriteService.nextAutoId store) input] },
            AutoWriteService.nextAutoId store)) := by
  constructor
  · intro hcount
    simp only [AutoWriteService.create, hf]
    rw [if_pos hcount]
  · intro hcount
    simp only [AutoWriteService.create, hf]
    rw [if_neg (by omega)]

/-- Witness for C9: creating a second vehicle with `autoA`'s FIN fails with
`FinExists`, while a fresh FIN is inserted and its new id returned. -/
theorem create_fin_uniqueness_witness :
    AutoWriteService.create sampleStore
        { fin := some "WDB123456789XYZ01", rating := 1, art := none, preis := 5,
          rabatt := none, verfuegbar := none, baujahr := none, homepage := none,
          schlagwoerter := none, fahrzeugschein := none } =
      Except.error (Err.finExists "WDB123456789XYZ01") :=
  (create_fin_uniqueness sampleStore
    { fin := some "WDB123456789XYZ01", rating := 1, art := none, preis := 5,
      rabatt := none, verfuegbar := none, baujahr := none, homepage := none,
      schlagwoerter := none, fahrzeugschein := none }
    "WDB123456789XYZ01" rfl).1 (by decide)

/-- C1 (divergence documented): `addFile` on a vehicle id that does not
exist does NOT fail with the NotFound error the specification describes.
The source never awaits `tx.auto.findUnique`, so the `auto === null` check
compares a pending Promise with `null` and the `NotFoundException` branch is
dead; the transaction instead dies on the store's foreign-key violation when
inserting the file row.  Concretely, on an empty store (no vehicle with id
99) the result is the foreign-key error, not `Err.notFound`. -/
theorem addFile_missing_vehicle_not_notFound :
    AutoWriteService.addFile ⟨[], []⟩ 99 [1, 2, 3] (some "image/png") "foto.png" =
      Except.error (Err.foreignKeyViolation 99) ∧
    ∀ msg, AutoWriteService.addFile ⟨[], []⟩ 99 [1, 2, 3] (some "image/png") "foto.png" ≠
      Except.error (Err.notFound msg) := by
  refine ⟨rfl, fun msg h => ?_⟩
  rw [show AutoWriteService.addFile ⟨[], []⟩ 99 [1, 2, 3] (some "image/png") "foto.png" =
      Except.error (Err.foreignKeyViolation 99) from rfl] at h
  simp at h

/-- A `findById` failure is always a `NotFound` error. -/
lemma findById_error_notFound (store : Store) (id : Nat) (m : Bool) (e : Err)
    (h : AutoService.findById store id m = Except.error e) :
    ∃ msg, e = Err.notFound msg := by
  unfold AutoService.findById at h
  split at h
  · simp only [Except.error.injEq] at h
    exact ⟨_, h.symm⟩
  · simp at h

/-- A quoted digit run of length 1 to 3 satisfies the exact version format. -/
lemma specExactVersion_mk (ds : List Char) (h1 : 1 ≤ ds.length) (h3 : ds.length ≤ 3)
    (hd : ds.all Char.isDigit = true) :
    specExactVersion ⟨'"' :: (ds ++ ['"'])⟩ = true := by
  show (('"' : Char) == '"' && decide (2 ≤ (ds ++ ['"']).length) &&
      decide ((ds ++ ['"']).length ≤ 4) && (ds ++ ['"']).dropLast.all Char.isDigit &&
      (ds ++ ['"']).getLast? == some '"') = true
  simp [List.dropLast_concat, List.getLast?_concat, hd]
  omega

/-- The anchored-only-at-the-start regular expression of the source accepts
exactly the strings that begin with an exact quoted 1–3-digit version,
whatever follows. -/
lemma versionPatternTest_iff (s : String) :
    AutoWriteService.versionPatternTest s = true ↔
      ∃ t u : String, s = t ++ u ∧ specExactVersion t = true := by
  constructor
  · intro h
    unfold AutoWriteService.versionPatternTest at h
    split at h
    case h_2 => simp at h
    case h_1 c rest heq =>
      simp only [Bool.and_eq_true, beq_iff_eq, List.any_eq_true, decide_eq_true_eq] at h
      obtain ⟨rfl, k, hk, ⟨hlen, hdig⟩, hget⟩ := h
      rw [List.get?_eq_getElem?] at hget
      obtain ⟨hklt, hgetk⟩ := List.getElem?_eq_some.mp hget
      have hsplit : rest = rest.take k ++ '"' :: rest.drop (k + 1) := by
        conv_lhs => rw [← List.take_append_drop k rest]
        rw [List.drop_eq_getElem_cons hklt, hgetk]
      simp only [List.mem_cons, List.not_mem_nil, or_false] at hk
      refine ⟨⟨'"' :: (rest.take k ++ ['"'])⟩, ⟨rest.drop (k + 1)⟩, ?_, ?_⟩
      · apply String.ext
        rw [String.data_append]
        show s.data = ('"' :: (rest.take k ++ ['"'])) ++ rest.drop (k + 1)
        rw [heq]
        simp only [List.cons_append, List.cons.injEq, true_and, List.append_assoc,
          List.singleton_append]
        exact hsplit
      · have hk13 : 1 ≤ k ∧ k ≤ 3 := by
          rcases hk with rfl | rfl | rfl <;> omega
        refine specExactVersion_mk (rest.take k) ?_ ?_ hdig <;> rw [hlen] <;> omega
  · rintro ⟨t, u, rfl, hspec⟩
    unfold specExactVersion at hspec
    split at hspec
    case h_2 => simp at hspec
    case h_1 c rest heq =>
      simp only [Bool.and_eq_true, beq_iff_eq, decide_eq_true_eq] at hspec
      obtain ⟨⟨⟨⟨rfl, h2⟩, h4⟩, hdig⟩, hlast⟩ := hspec
      have hne : rest ≠ [] := by
        intro hnil
        rw [hnil] at h2
        simp at h2
      have hrest : rest = rest.dropLast ++ ['"'] := by
        conv_lhs => rw [← List.dropLast_append_getLast hne]
        rw [List.getLast?_eq_getLast rest hne] at hlast
        simp only [Option.some.injEq] at hlast
        rw [hlast]
      unfold AutoWriteService.versionPatternTest
      have hdata : (t ++ u).data = '"' :: (rest.dropLast ++ ('"' :: u.data)) := by
        rw [String.data_append, heq, List.cons_append]
        conv_lhs => rw [hrest]
        simp
      rw [hdata]
      simp only [Bool.and_eq_true, beq_iff_eq, List.any_eq_true, decide_eq_true_eq]
      have hdl : rest.dropLast.length = rest.length - 1 := List.length_dropLast rest
      refine ⟨trivial, rest.dropLast.length, ?_, ⟨⟨?_, ?_⟩, ?_⟩⟩
      · simp only [List.mem_cons, List.not_mem_nil, or_false]
        omega
      · rw [List.take_left]
      · rw [List.take_left]
        exact hdig
      · rw [List.get?_eq_getElem?]
        rw [List.getElem?_append_right (le_refl _)]
        simp

/-- C2 (amended): `update` fails with `VersionInvalid` carrying the raw
string if and only if the version string does not BEGIN with a decimal
number of 1 to 3 digits enclosed in double quotes — the pattern is anchored
only at the start, so additional characters after the closing quote are
accepted rather than rejected. -/
theorem update_versionInvalid_iff (store : Store) (id : Nat)
    (u : AutoWriteService.AutoUpdate) (s : String) :
    AutoWriteService.update store (some id) u s = Except.error (Err.versionInvalid s) ↔
      ¬ ∃ t rest : String, s = t ++ rest ∧ specExactVersion t = true := by
  rw [← versionPatternTest_iff]
  constructor
  · intro h hpat
    simp only [AutoWriteService.update] at h
    rw [if_neg (by simp [hpat])] at h
    cases hfb : AutoService.findById store id false with
    | error e =>
      rw [hfb] at h
      obtain ⟨msg, rfl⟩ := findById_error_notFound store id false e hfb
      simp at h
    | ok autoDb =>
      rw [hfb] at h
      split at h
      · rename_i e2 heq2
        simp at heq2
      · rename_i autoDb2 heq2
        split at h <;> simp at h
  · intro h
    simp only [Bool.not_eq_true] at h
    simp only [AutoWriteService.update]
    rw [if_pos (by simp [h])]

/-- Counterexample for C2: the version string `"1"x` is not an exact quoted
1–3-digit number (it has a trailing character), yet `update` does not fail
with `VersionInvalid` — the unanchored pattern accepts it and the update
goes through. -/
theorem update_versionInvalid_counterexample :
    specExactVersion "\"1\"x" = false ∧
    AutoWriteService.update sampleStore (some 1) AutoWriteService.emptyUpdate "\"1\"x" ≠
      Except.error (Err.versionInvalid "\"1\"x") ∧
    (AutoWriteService.update sampleStore (some 1) AutoWriteService.emptyUpdate "\"1\"x").isOk
      = true := by
  have hok : (AutoWriteService.update sampleStore (some 1) AutoWriteService.emptyUpdate
      "\"1\"x").isOk = true := by decide
  refine ⟨by decide, ?_, hok⟩
  intro hcontra
  rw [hcontra] at hok
  simp [Except.isOk, Except.toBool] at hok

/-- Witness for C2 (amended): a version string with no quoted digit prefix
is rejected as `VersionInvalid`. -/
theorem update_versionInvalid_witness :
    AutoWriteService.update sampleStore (some 1) AutoWriteService.emptyUpdate "abc" =
      Except.error (Err.versionInvalid "abc") := by
  apply (update_versionInvalid_iff sampleStore 1 AutoWriteService.emptyUpdate "abc").mpr
  rintro ⟨t, u, heq, hspec⟩
  unfold specExactVersion at hspec
  split at hspec
  case h_2 => simp at hspec
  case h_1 c rest heqt =>
    simp only [Bool.and_eq_true, beq_iff_eq] at hspec
    obtain ⟨⟨⟨⟨rfl, -⟩, -⟩, -⟩, -⟩ := hspec
    have hd : ("abc" : String).data = t.data ++ u.data := by
      rw [heq, String.data_append]
    rw [heqt] at hd
    injection hd with h1 h2
    exact absurd h1 (by decide)

/-- Updating a row by id inside `map` keeps it the first match of the
id predicate, now with the update applied. -/
lemma find?_update_map (l : List Auto) (id : Nat) (u : AutoWriteService.AutoUpdate)
    (a : Auto) (h : l.find? (fun x => x.id == id) = some a) :
    (l.map (fun x => if x.id == id then AutoWriteService.applyUpdate u x else x)).find?
      (fun x => x.id == id) = some (AutoWriteService.applyUpdate u a) := by
  induction l with
  | nil => simp at h
  | cons hd tl ih =>
    by_cases hhd : (hd.id == id) = true
    · simp only [List.find?, hhd] at h
      simp only [Option.some.injEq] at h
      subst h
      have hhd2 : ((AutoWriteService.applyUpdate u hd).id == id) = true := hhd
      simp only [List.map_cons, if_pos hhd, List.find?, hhd2]
    · have hhd0 : (hd.id == id) = false := by simpa using hhd
      simp only [List.find?, hhd0] at h
      simp only [List.map_cons, List.find?, hhd0, Bool.false_eq_true, if_false]
      exact ih h

/-- C4: for an update of an existing vehicle with a well-formed version
string parsing to `n`: `n` below the stored version fails with
`VersionOutdated` carrying `n` (no updated store is produced); `n` at least
the stored version succeeds, the stored version becomes exactly the old
version plus 1, and that number is returned. -/
theorem update_version_check (store : Store) (id : Nat)
    (u : AutoWriteService.AutoUpdate) (s : String) (n : Int) (a : Auto)
    (hpat : AutoWriteService.versionPatternTest s = true)
    (hparse : AutoWriteService.parseVersion s = some n)
    (hfind : store.autos.find? (fun x => x.id == id) = some a) :
    (n < a.version →
      AutoWriteService.update store (some id) u s = Except.error (Err.versionOutdated n)) ∧
    (a.version ≤ n →
      ∃ store',
        AutoWriteService.update store (some id) u s = Except.ok (store', a.version + 1) ∧
        (store'.autos.find? (fun x => x.id == id)).map Auto.version =
          some (a.version + 1)) := by
  have hfb : AutoService.findById store id false =
      Except.ok (AutoService.normalizeSchlagwoerter a) := by
    unfold AutoService.findById
    rw [hfind]
  have hver : (AutoService.normalizeSchlagwoerter a).version = a.version := by
    cases hs : a.schlagwoerter <;> simp [AutoService.normalizeSchlagwoerter, hs]
  constructor
  · intro hlt
    simp only [AutoWriteService.update, hfb, hparse, hpat, Bool.not_true,
      Option.getD_some, hver]
    rw [if_neg (by simp), if_pos (by simp [hver, hlt])]
  · intro hge
    refine ⟨{ store with
        autos := store.autos.map
          (fun x => if x.id == id then AutoWriteService.applyUpdate u x else x) }, ?_, ?_⟩
    · simp only [AutoWriteService.update, hfb, hparse, hpat, Bool.not_true, hver]
      rw [if_neg (by simp), if_neg (by simp [hver]; omega)]
    · have := find?_update_map store.autos id u a hfind
      simp only [this, Option.map_some]
      rfl

/-- Witness for C4: updating `autoB` (stored version 3) with `"3"` succeeds
and yields version 4. -/
theorem update_version_check_witness :
    ∃ store',
      AutoWriteService.update sampleStore (some 2) AutoWriteService.emptyUpdate "\"3\"" =
        Except.ok (store', autoB.version + 1) ∧
      (store'.autos.find? (fun x => x.id == 2)).map Auto.version =
        some (autoB.version + 1) :=
  (update_version_check sampleStore 2 AutoWriteService.emptyUpdate "\"3\"" 3 autoB
    (by decide) (by decide) (by decide)).2 (by decide)

/-- The flag-to-keyword table of `#buildSchlagwoerter`: each tag flag with
its mapped uppercase keyword (note `e_auto` maps to "E-AUTO" and
`vier_x_vier` to "4x4"). -/
def WhereBuilder.flagTable : List ((WhereBuilder.TagFlags → Option String) × String) :=
  [(WhereBuilder.TagFlags.allrad, "ALLRAD"), (WhereBuilder.TagFlags.benzin, "BENZIN"),
   (WhereBuilder.TagFlags.budget, "BUDGET"), (WhereBuilder.TagFlags.business, "BUSINESS"),
   (WhereBuilder.TagFlags.cabrio, "CABRIO"), (WhereBuilder.TagFlags.e_auto, "E-AUTO"),
   (WhereBuilder.TagFlags.einfach, "EINFACH"), (WhereBuilder.TagFlags.familie, "FAMILIE"),
   (WhereBuilder.TagFlags.hybrid, "HYBRID"), (WhereBuilder.TagFlags.komfort, "KOMFORT"),
   (WhereBuilder.TagFlags.kombi, "KOMBI"),
   (WhereBuilder.TagFlags.nutzfahrzeug, "NUTZFAHRZEUG"),
   (WhereBuilder.TagFlags.pickup, "PICKUP"),
   (WhereBuilder.TagFlags.reichweite, "REICHWEITE"),
   (WhereBuilder.TagFlags.sparsam, "SPARSAM"), (WhereBuilder.TagFlags.sport, "SPORT"),
   (WhereBuilder.TagFlags.suv, "SUV"), (WhereBuilder.TagFlags.tech, "TECH"),
   (WhereBuilder.TagFlags.vier_x_vier, "4x4")]

/-- `#buildSchlagwoerter` is the right fold of conditional singletons over
the flag table evaluated at `t`. -/
lemma buildSchlagwoerter_foldr (t : WhereBuilder.TagFlags) :
    WhereBuilder.buildSchlagwoerter t =
      (WhereBuilder.flagTable.map
        (fun p => (WhereBuilder.isTrueFlag (p.1 t), p.2))).foldr
        (fun p acc => (if p.1 then [p.2] else []) ++ acc) [] := by
  simp only [WhereBuilder.flagTable, List.map_cons, List.map_nil, List.foldr_cons,
    List.foldr_nil, WhereBuilder.buildSchlagwoerter, List.append_assoc,
    List.append_nil]

/-- Folding conditional singletons is filtering by the flag and projecting
the keyword. -/
lemma foldr_ite_filter (bs : List (Bool × String)) :
    bs.foldr (fun p acc => (if p.1 then [p.2] else []) ++ acc) [] =
      (bs.filter (fun p => p.1)).map Prod.snd := by
  induction bs with
  | nil => rfl
  | cons hd tl ih =>
    cases hhd : hd.1 <;> simp [List.filter_cons, hhd, ih]

/-- The `switch` of `build` never writes the keyword clause. -/
lemma foldl_applyRest_schlagwoerter (l : List (String × String))
    (w : WhereBuilder.Where) :
    (l.foldl WhereBuilder.applyRest w).schlagwoerterContains =
      w.schlagwoerterContains := by
  induction l generalizing w with
  | nil => rfl
  | cons kv tl ih =>
    rw [List.foldl_cons, ih]
    unfold WhereBuilder.applyRest
    split <;> first | rfl | (split <;> rfl)

/-- C6: each tag flag contributes its mapped uppercase keyword exactly when
its value case-insensitively equals "true" (the accumulated list is the
keyword table filtered by the true flags, in order); the keyword clause is
present in the built predicate iff that list is non-empty; and the clause
means superset containment: a matching vehicle's keyword set contains all
accumulated keywords. -/
theorem tag_flags_build_schlagwoerter (t : WhereBuilder.TagFlags)
    (ps : Suchparameter) (a : Auto) :
    (WhereBuilder.buildSchlagwoerter t =
      (WhereBuilder.flagTable.filter
        (fun p => WhereBuilder.isTrueFlag (p.1 t))).map Prod.snd) ∧
    ((WhereBuilder.build ps).schlagwoerterContains =
      if (WhereBuilder.buildSchlagwoerter (WhereBuilder.flagsOf ps)).isEmpty then none
      else some (WhereBuilder.buildSchlagwoerter (WhereBuilder.flagsOf ps))) ∧
    (∀ (w : WhereBuilder.Where) (kws : List String),
      w.schlagwoerterContains = some kws → matchesWhere w a = true →
      ∀ k ∈ kws, k ∈ a.schlagwoerter.getD []) := by
  refine ⟨?_, ?_, ?_⟩
  · rw [buildSchlagwoerter_foldr, foldr_ite_filter, List.filter_map, List.map_map]
    congr 1
  · simp only [WhereBuilder.build]
    split
    · rw [foldl_applyRest_schlagwoerter]
      rfl
    · rfl
  · intro w kws hw hm k hk
    unfold matchesWhere at hm
    rw [hw] at hm
    simp only [Bool.and_eq_true] at hm
    obtain ⟨-, hlast⟩ := hm
    cases hs : a.schlagwoerter with
    | none =>
      rw [hs] at hlast
      simp at hlast
    | some l =>
      rw [hs] at hlast
      simp only [List.all_eq_true] at hlast
      have := hlast k hk
      simp only [hs, Option.getD_some]
      simpa [List.contains] using this

/-- The keyword clause added at the end of `build` does not change the
`rating` clause. -/
lemma build_ratingGte (ps : Suchparameter) :
    (WhereBuilder.build ps).ratingGte =
      ((ps.filter (fun kv => !(tagFlagNamen.contains kv.1))).foldl
        WhereBuilder.applyRest WhereBuilder.emptyWhere).ratingGte := by
  simp only [WhereBuilder.build]
  split <;> rfl

/-- The keyword clause added at the end of `build` does not change the
`preis` clause. -/
lemma build_preisLte (ps : Suchparameter) :
    (WhereBuilder.build ps).preisLte =
      ((ps.filter (fun kv => !(tagFlagNamen.contains kv.1))).foldl
        WhereBuilder.applyRest WhereBuilder.emptyWhere).preisLte := by
  simp only [WhereBuilder.build]
  split <;> rfl

/-- A `switch` step on a key other than `rating` leaves the rating clause. -/
lemma applyRest_ratingGte_of_ne (w : WhereBuilder.Where) (kv : String × String)
    (h : kv.1 ≠ "rating") :
    (WhereBuilder.applyRest w kv).ratingGte = w.ratingGte := by
  unfold WhereBuilder.applyRest
  split <;> first | rfl | (split <;> rfl) | (rename_i heq; exact absurd heq h)

/-- A `switch` step on a key other than `preis` leaves the preis clause. -/
lemma applyRest_preisLte_of_ne (w : WhereBuilder.Where) (kv : String × String)
    (h : kv.1 ≠ "preis") :
    (WhereBuilder.applyRest w kv).preisLte = w.preisLte := by
  unfold WhereBuilder.applyRest
  split <;> first | rfl | (split <;> rfl) | (rename_i heq; exact absurd heq h)

/-- Folding over entries without the key `rating` leaves the rating clause. -/
lemma foldl_ratingGte_of_not_mem (l : Suchparameter) (w : WhereBuilder.Where)
    (h : ∀ kv ∈ l, kv.1 ≠ "rating") :
    (l.foldl WhereBuilder.applyRest w).ratingGte = w.ratingGte := by
  induction l generalizing w with
  | nil => rfl
  | cons hd tl ih =>
    rw [List.foldl_cons, ih _ (fun kv hkv => h kv (List.mem_cons_of_mem _ hkv)),
      applyRest_ratingGte_of_ne _ _ (h hd (List.mem_cons_self _ _))]

/-- Folding over entries without the key `preis` leaves the preis clause. -/
lemma foldl_preisLte_of_not_mem (l : Suchparameter) (w : WhereBuilder.Where)
    (h : ∀ kv ∈ l, kv.1 ≠ "preis") :
    (l.foldl WhereBuilder.applyRest w).preisLte = w.preisLte := by
  induction l generalizing w with
  | nil => rfl
  | cons hd tl ih =>
    rw [List.foldl_cons, ih _ (fun kv hkv => h kv (List.mem_cons_of_mem _ hkv)),
      applyRest_preisLte_of_ne _ _ (h hd (List.mem_cons_self _ _))]

/-- The `rating` step of the switch writes the parsed value or does nothing. -/
lemma applyRest_rating (w : WhereBuilder.Where) (v : String) :
    WhereBuilder.applyRest w ("rating", v) =
      match parseIntNoRadix v with
      | some n => { w with ratingGte := some n }
      | none => w := rfl

/-- The `preis` step of the switch writes the parsed value or does nothing. -/
lemma applyRest_preis (w : WhereBuilder.Where) (v : String) :
    WhereBuilder.applyRest w ("preis", v) =
      match parseFloatJS v with
      | some q => { w with preisLte := some q }
      | none => w := rfl

/-- Property lookup skips an entry whose key differs from the name. -/
lemma lookupParam_skip (l1 l2 : Suchparameter) (x : String × String) (name : String)
    (h : x.1 ≠ name) :
    lookupParam (l1 ++ x :: l2) name = lookupParam (l1 ++ l2) name := by
  unfold lookupParam
  induction l1 with
  | nil =>
    simp only [List.nil_append, List.find?]
    have hx : (x.1 == name) = false := by simpa using h
    rw [hx]
  | cons hd tl ih =>
    simp only [List.cons_append, List.find?]
    cases hhd : (hd.1 == name)
    · simpa [hhd] using ih
    · simp [hhd]

/-- Flag destructuring skips a non-flag entry in the middle of the bag. -/
lemma flagsOf_skip (l1 l2 : Suchparameter) (x : String × String)
    (h : x.1 ∉ tagFlagNamen) :
    WhereBuilder.flagsOf (l1 ++ x :: l2) = WhereBuilder.flagsOf (l1 ++ l2) := by
  have hne : ∀ name ∈ tagFlagNamen, x.1 ≠ name := fun name hn hx => h (hx ▸ hn)
  simp only [WhereBuilder.flagsOf, WhereBuilder.TagFlags.mk.injEq]
  and_intros <;> exact lookupParam_skip _ _ _ _ (hne _ (by decide))

/-- `build` ignores a middle entry that is not a tag flag and on which the
switch does nothing. -/
lemma build_middle_noop (l1 l2 : Suchparameter) (x : String × String)
    (htag : x.1 ∉ tagFlagNamen)
    (hid : ∀ w, WhereBuilder.applyRest w x = w) :
    WhereBuilder.build (l1 ++ x :: l2) = WhereBuilder.build (l1 ++ l2) := by
  have htagb : (!(tagFlagNamen.contains x.1)) = true := by
    simpa using htag
  have hflag := flagsOf_skip l1 l2 x htag
  have hfold :
      ((l1 ++ x :: l2).filter (fun kv => !(tagFlagNamen.contains kv.1))).foldl
          WhereBuilder.applyRest WhereBuilder.emptyWhere =
        ((l1 ++ l2).filter (fun kv => !(tagFlagNamen.contains kv.1))).foldl
          WhereBuilder.applyRest WhereBuilder.emptyWhere := by
    rw [List.filter_append, List.filter_cons, if_pos htagb, List.filter_append,
      List.foldl_append, List.foldl_cons, hid, ← List.foldl_append]
  simp only [WhereBuilder.build, hflag, hfold]

/-- C7: in the built predicate, `rating` yields a ≥ comparison against its
parsed numeric value and `preis` a ≤ comparison against its parsed value;
a value that does not parse (NaN) produces no clause for that parameter at
all — the build result equals the build without that parameter. -/
theorem rating_preis_filters (ps : Suchparameter) (hnd : (ps.map Prod.fst).Nodup) :
    (∀ v, ("rating", v) ∈ ps →
      (WhereBuilder.build ps).ratingGte = parseIntNoRadix v ∧
      (parseIntNoRadix v = none →
        WhereBuilder.build ps =
          WhereBuilder.build (ps.filter (fun kv => kv.1 != "rating")))) ∧
    (∀ v, ("preis", v) ∈ ps →
      (WhereBuilder.build ps).preisLte = parseFloatJS v ∧
      (parseFloatJS v = none →
        WhereBuilder.build ps =
          WhereBuilder.build (ps.filter (fun kv => kv.1 != "preis")))) := by
  constructor
  · intro v hmem
    obtain ⟨l1, l2, rfl⟩ := List.append_of_mem hmem
    rw [List.map_append, List.map_cons] at hnd
    have hnotin : "rating" ∉ (l1.map Prod.fst ++ l2.map Prod.fst) :=
      (List.nodup_cons.mp (List.nodup_middle.mp hnd)).1
    have h1 : ∀ kv ∈ l1, kv.1 ≠ "rating" := by
      intro kv hkv heq
      exact hnotin (List.mem_append_left _ (heq ▸ List.mem_map_of_mem Prod.fst hkv))
    have h2 : ∀ kv ∈ l2, kv.1 ≠ "rating" := by
      intro kv hkv heq
      exact hnotin (List.mem_append_right _ (heq ▸ List.mem_map_of_mem Prod.fst hkv))
    have hfil : (l1 ++ ("rating", v) :: l2).filter
          (fun kv => !(tagFlagNamen.contains kv.1)) =
        l1.filter (fun kv => !(tagFlagNamen.contains kv.1)) ++ ("rating", v) ::
          l2.filter (fun kv => !(tagFlagNamen.contains kv.1)) := by
      rw [List.filter_append, List.filter_cons,
        if_pos (show (!(tagFlagNamen.contains "rating")) = true by decide)]
    constructor
    · rw [build_ratingGte, hfil, List.foldl_append, List.foldl_cons,
        foldl_ratingGte_of_not_mem _ _
          (fun kv hkv => h2 kv (List.mem_of_mem_filter hkv)),
        applyRest_rating]
      cases hp : parseIntNoRadix v with
      | some n => simp [hp]
      | none =>
        simp only [hp]
        rw [foldl_ratingGte_of_not_mem _ _
          (fun kv hkv => h1 kv (List.mem_of_mem_filter hkv))]
        rfl
    · intro hp
      have hid : ∀ w, WhereBuilder.applyRest w ("rating", v) = w := by
        intro w
        rw [applyRest_rating, hp]
      have hfl : (l1 ++ ("rating", v) :: l2).filter (fun kv => kv.1 != "rating") =
          l1 ++ l2 := by
        rw [List.filter_append, List.filter_cons, if_neg (by simp),
          List.filter_eq_self.mpr (fun kv hkv => by simpa using h1 kv hkv),
          List.filter_eq_self.mpr (fun kv hkv => by simpa using h2 kv hkv)]
      rw [hfl]
      exact build_middle_noop l1 l2 ("rating", v)
        (show ("rating" : String) ∉ tagFlagNamen by decide) hid
  · intro v hmem
    obtain ⟨l1, l2, rfl⟩ := List.append_of_mem hmem
    rw [List.map_append, List.map_cons] at hnd
    have hnotin : "preis" ∉ (l1.map Prod.fst ++ l2.map Prod.fst) :=
      (List.nodup_cons.mp (List.nodup_middle.mp hnd)).1
    have h1 : ∀ kv ∈ l1, kv.1 ≠ "preis" := by
      intro kv hkv heq
      exact hnotin (List.mem_append_left _ (heq ▸ List.mem_map_of_mem Prod.fst hkv))
    have h2 : ∀ kv ∈ l2, kv.1 ≠ "preis" := by
      intro kv hkv heq
      exact hnotin (List.mem_append_right _ (heq ▸ List.mem_map_of_mem Prod.fst hkv))
    have hfil : (l1 ++ ("preis", v) :: l2).filter
          (fun kv => !(tagFlagNamen.contains kv.1)) =
        l1.filter (fun kv => !(tagFlagNamen.contains kv.1)) ++ ("preis", v) ::
          l2.filter (fun kv => !(tagFlagNamen.contains kv.1)) := by
      rw [List.filter_append, List.filter_cons,
        if_pos (show (!(tagFlagNamen.contains "preis")) = true by decide)]
    constructor
    · rw [build_preisLte, hfil, List.foldl_append, List.foldl_cons,
        foldl_preisLte_of_not_mem _ _
          (fun kv hkv => h2 kv (List.mem_of_mem_filter hkv)),
        applyRest_preis]
      cases hp : parseFloatJS v with
      | some q => simp [hp]
      | none =>
        simp only [hp]
        rw [foldl_preisLte_of_not_mem _ _
          (fun kv hkv => h1 kv (List.mem_of_mem_filter hkv))]
        rfl
    · intro hp
      have hid : ∀ w, WhereBuilder.applyRest w ("preis", v) = w := by
        intro w
        rw [applyRest_preis, hp]
      have hfl : (l1 ++ ("preis", v) :: l2).filter (fun kv => kv.1 != "preis") =
          l1 ++ l2 := by
        rw [List.filter_append, List.filter_cons, if_neg (by simp),
          List.filter_eq_self.mpr (fun kv hkv => by simpa using h1 kv hkv),
          List.filter_eq_self.mpr (fun kv hkv => by simpa using h2 kv hkv)]
      rw [hfl]
      exact build_middle_noop l1 l2 ("preis", v)
        (show ("preis" : String) ∉ tagFlagNamen by decide) hid

/-- Witness for C7: an unparsable `rating` value contributes no clause and
leaves the rest of the predicate exactly as if the parameter were absent. -/
theorem rating_preis_filters_witness :
    (WhereBuilder.build [("rating", "abc"), ("preis", "xyz")]).ratingGte = none ∧
    WhereBuilder.build [("rating", "abc"), ("preis", "xyz")] =
      WhereBuilder.build [("preis", "xyz")] := by
  have h := (rating_preis_filters [("rating", "abc"), ("preis", "xyz")] (by decide)).1
    "abc" (by simp)
  exact ⟨(h.1).trans (by decide), (h.2 (by decide)).trans (by rfl)⟩

/-- The `forEach` flag loop of `#checkKeys` is `List.all` of the key test. -/
lemma checkKeys_eq_all (keys : List String) :
    AutoService.checkKeys keys =
      keys.all (fun k => suchparameterNamen.contains k || tagFlagNamen.contains k) := by
  have hgen : ∀ (l : List String) (b : Bool),
      l.foldl (fun validKeys key =>
        if !(suchparameterNamen.contains key || tagFlagNamen.contains key) then false
        else validKeys) b =
      (b && l.all (fun k => suchparameterNamen.contains k || tagFlagNamen.contains k)) := by
    intro l
    induction l with
    | nil => intro b; simp
    | cons hd tl ih =>
      intro b
      rw [List.foldl_cons, ih, List.all_cons]
      simp [Bool.and_assoc, Bool.and_comm, Bool.and_left_comm]
  rw [AutoService.checkKeys, hgen, Bool.true_and]

/-- The empty-result message of a filtered search is never the
invalid-parameters message. -/
lemma keineAutos_ne_ungueltig (x y : String) :
    ("Keine Autos gefunden: " ++ x ++ ", Seite " ++ y ++ "\x7d") ≠
      "Ungueltige Suchparameter" := by
  intro h
  have hlen := congrArg String.length h
  simp only [String.length_append] at hlen
  have e1 : "Keine Autos gefunden: ".length = 22 := by decide
  have e2 : ", Seite ".length = 8 := by decide
  have e3 : ("\x7d" : String).length = 1 := by decide
  have e4 : "Ungueltige Suchparameter".length = 24 := by decide
  rw [e1, e2, e3, e4] at hlen
  omega

/-- `#checkKeys` fails exactly when some key is outside the recognised
names and the tag flags. -/
lemma checkKeys_false_iff (ps : Suchparameter) :
    AutoService.checkKeys (ps.map Prod.fst) = false ↔
      ∃ kv ∈ ps, kv.1 ∉ suchparameterNamen ∧ kv.1 ∉ tagFlagNamen := by
  rw [checkKeys_eq_all, List.all_eq_false]
  constructor
  · rintro ⟨k, hk, hp⟩
    obtain ⟨kv, hkv, rfl⟩ := List.mem_map.mp hk
    refine ⟨kv, hkv, ?_, ?_⟩ <;> intro hmem <;> apply hp <;> simp [hmem]
  · rintro ⟨kv, hkv, h1, h2⟩
    refine ⟨kv.1, List.mem_map_of_mem Prod.fst hkv, ?_⟩
    simp [h1, h2]

/-- `#checkEnums` fails exactly when an `art` value is present and invalid. -/
lemma checkEnums_false_iff (ps : Suchparameter) :
    AutoService.checkEnums ps = false ↔
      ∃ v, lookupParam ps "art" = some v ∧ v ∉ validArtWerte := by
  unfold AutoService.checkEnums
  cases hl : lookupParam ps "art" with
  | none => simp
  | some v => simp

/-- C3 (amended): a non-empty search fails with the "Ungueltige
Suchparameter" NotFound error iff some key is outside
`suchparameterNamen` ∪ tag-flag names, or an `art` value is present and not
one of the seven enum values.  The accepted non-flag keys are exactly
`suchparameterNamen` — which excludes the spec table's aliases `lieferbar`
and `datum` but includes `rabatt` and `schlagwoerter`. -/
theorem find_invalid_search_parameters (store : Store) (ps : Suchparameter)
    (pg : Pageable) (hne : ps ≠ []) :
    (AutoService.find store (some ps) pg =
        Except.error (Err.notFound "Ungueltige Suchparameter")) ↔
      ((∃ kv ∈ ps, kv.1 ∉ suchparameterNamen ∧ kv.1 ∉ tagFlagNamen) ∨
        (∃ v, lookupParam ps "art" = some v ∧ v ∉ validArtWerte)) := by
  have hlen0 : ¬ ps.length = 0 := fun h => hne (List.length_eq_zero.mp h)
  constructor
  · intro h
    by_cases hck :
        ((!(AutoService.checkKeys (ps.map Prod.fst))) || (!(AutoService.checkEnums ps))) = true
    · have hck2 : AutoService.checkKeys (ps.map Prod.fst) = false ∨
          AutoService.checkEnums ps = false := by
        simpa using hck
      rcases hck2 with hk | hk
      · exact Or.inl ((checkKeys_false_iff ps).mp hk)
      · exact Or.inr ((checkEnums_false_iff ps).mp hk)
    · simp only [AutoService.find] at h
      rw [if_neg hlen0, if_neg hck] at h
      split at h
      · rename_i hempty
        simp only [Except.error.injEq, Err.notFound.injEq] at h
        exact absurd h (keineAutos_ne_ungueltig _ _)
      · simp at h
  · intro h
    have hck :
        ((!(AutoService.checkKeys (ps.map Prod.fst))) || (!(AutoService.checkEnums ps))) = true := by
      rcases h with h | h
      · have := (checkKeys_false_iff ps).mpr h
        simp [this]
      · have := (checkEnums_false_iff ps).mpr h
        simp [this]
    simp only [AutoService.find]
    rw [if_neg hlen0, if_pos hck]

/-- Witness for C3 (amended): an unknown key `foo` makes `find` fail with
the invalid-parameters error. -/
theorem find_invalid_search_parameters_witness :
    AutoService.find sampleStore (some [("foo", "bar")]) ⟨0, 5⟩ =
      Except.error (Err.notFound "Ungueltige Suchparameter") :=
  (find_invalid_search_parameters sampleStore [("foo", "bar")] ⟨0, 5⟩ (by decide)).mpr
    (Or.inl ⟨("foo", "bar"), by simp, by decide, by decide⟩)

/-- Counterexample for C3: `lieferbar` belongs to the spec's recognised
comparison-parameter table (it is the documented alias of `verfuegbar`),
yet a search using only this key fails with the invalid-search-parameters
NotFound error, because `#checkKeys` validates against `suchparameterNamen`,
which has no aliases. -/
theorem find_lieferbar_rejected_counterexample :
    "lieferbar" ∈ specTableKeys ∧
    AutoService.find sampleStore (some [("lieferbar", "true")]) ⟨0, 5⟩ =
      Except.error (Err.notFound "Ungueltige Suchparameter") := by
  constructor
  · decide
  · rfl

/-- Witness for C6: with `suv=true`, the built predicate requires "SUV" and
a matching row's keyword set contains it. -/
theorem tag_flags_build_witness :
    "SUV" ∈ autoA.schlagwoerter.getD [] :=
  (tag_flags_build_schlagwoerter (WhereBuilder.flagsOf [("suv", "true")])
    [("suv", "true")] autoA).2.2 (WhereBuilder.build [("suv", "true")]) ["SUV"]
    (by rfl) (by decide) "SUV" (by decide)
